import Mathlib

/-!
Verification development for the composable-dra-driver repository.

Shallow embedding of:
* the identity-manager credential cache (`cachedIMTokenSource.Token`,
  `idManagerTokenSource.getIdManagerSecret` in pkg/client),
* the resource-pool diff-and-publish logic (`CDIManager.updatePool`,
  `CDIManager.generatePool` in pkg/manager),
* the reconciliation-pass machine construction and the per-node-group
  min/max quota overlay (`startCheckResourcePoolLoop`),
* the device-list deep copy with an explicit heap so that pointer
  aliasing is visible (`deviceList.DeepCopy`),
* the node-label synchronisation (`manageCDINodeLabel`), and
* a two-thread interleaving model of the credential cache used to study
  its locking discipline.

Time instants and durations are modelled as integers (Go nanoseconds),
Go byte strings as Lean strings measured with `String.utf8ByteSize`,
Go `*int` fields as `Option Int`, and Go maps as association lists or
functions with the zero-value-on-missing-key semantics spelled out at
each definition.
-/

set_option maxRecDepth 10000

namespace CDI

instance {α β : Type} [DecidableEq α] [DecidableEq β] : DecidableEq (Except α β) :=
  fun a b =>
    match a, b with
    | .ok x, .ok y =>
      if h : x = y then .isTrue (by rw [h]) else .isFalse (by intro hc; cases hc; exact h rfl)
    | .ok _, .error _ => .isFalse (by intro hc; cases hc)
    | .error _, .ok _ => .isFalse (by intro hc; cases hc)
    | .error x, .error y =>
      if h : x = y then .isTrue (by rw [h]) else .isFalse (by intro hc; cases hc; exact h rfl)

/-! ## Credential cache (`pkg/client`, `cachedIMTokenSource`) -/

/-- One Go nanosecond; times are `Int` nanoseconds since the epoch. -/
def nanosecond : Int := 1

/-- Go `time.Second` in nanoseconds. -/
def second : Int := 1000000000

/-- Embedding of `oauth2.Token`, restricted to the fields the cache reads:
the opaque access token and the absolute expiry instant. -/
structure OToken where
  accessToken : String
  expiry : Int
deriving Repr, DecidableEq

/-- The mutable fields of `cachedIMTokenSource`: the fixed refresh margin
and the currently cached token (`nil` pointer = `none`). -/
structure CachedIMTokenSource where
  marginTime : Int
  token : Option OToken
deriving Repr, DecidableEq

/-- Constructor of `cachedIMTokenSource`: the margin is fixed at 30 seconds
and no token is cached initially. -/
def mkCachedIMTokenSource : CachedIMTokenSource :=
  { marginTime := 30 * second, token := none }

/-- Result of one call to `cachedIMTokenSource.Token`: the returned
token or error, the state of the cache afterwards, and whether the
underlying `newIMTokenSource.Token()` refresh was invoked. -/
structure TokenOutcome where
  result : Except String OToken
  state : CachedIMTokenSource
  refreshInvoked : Bool
deriving Repr, DecidableEq

/-- The refresh branch of `cachedIMTokenSource.Token`: on refresh error,
return the stale token when one is cached (keeping it), otherwise
propagate the error; on success store and return the new token. -/
def tokenRefreshBranch (ts : CachedIMTokenSource) (refresh : Except String OToken) :
    TokenOutcome :=
  match refresh with
  | .error e =>
    match ts.token with
    | none => ⟨.error e, ts, true⟩
    | some old => ⟨.ok old, ts, true⟩
  | .ok t => ⟨.ok t, { ts with token := some t }, true⟩

/-- Embedding of `cachedIMTokenSource.Token`, as a function of the cache state, the
clock value `now` read at entry, and the outcome the underlying token
source would produce if invoked.  The cached token is served exactly
when `token.Expiry.Add(-marginTime).After(now)`, i.e. when
`expiry - marginTime > now`. -/
def tokenFn (ts : CachedIMTokenSource) (now : Int) (refresh : Except String OToken) :
    TokenOutcome :=
  match ts.token with
  | some t =>
    if t.expiry - ts.marginTime > now then ⟨.ok t, ts, false⟩
    else tokenRefreshBranch ts refresh
  | none => tokenRefreshBranch ts refresh

/-! ## Identity-manager secret bounds (`idManagerTokenSource.getIdManagerSecret`) -/

/-- Constant `secretAccessInfoLength = 1000 // 1 kB`. -/
def secretAccessInfoLength : Nat := 1000

/-- The five credential fields read from the secret. -/
structure IdManagerSecret where
  username : String := ""
  password : String := ""
  realm : String := ""
  client_id : String := ""
  client_secret : String := ""
deriving Repr, DecidableEq

/-- Go map read `string(data[k])`: a missing key yields the empty string. -/
def lookupData (data : List (String × String)) (k : String) : String :=
  match data.find? (fun p => p.1 == k) with
  | some p => p.2
  | none => ""

/-- Embedding of `idManagerTokenSource.getIdManagerSecret`.  The secret's byte map is
`none` when the secret (or its `Data`) is absent, in which case the
empty record is returned.  Each field is accepted only when its byte
length is strictly below `secretAccessInfoLength`; the first offending
field aborts with its error message, checked in source order. -/
def getIdManagerSecret (secret : Option (List (String × String))) :
    Except String IdManagerSecret :=
  match secret with
  | none => .ok {}
  | some data =>
    let username := lookupData data "username"
    if username.utf8ByteSize < secretAccessInfoLength then
      let password := lookupData data "password"
      if password.utf8ByteSize < secretAccessInfoLength then
        let realm := lookupData data "realm"
        if realm.utf8ByteSize < secretAccessInfoLength then
          let client_id := lookupData data "client_id"
          if client_id.utf8ByteSize < secretAccessInfoLength then
            let client_secret := lookupData data "client_secret"
            if client_secret.utf8ByteSize < secretAccessInfoLength then
              .ok { username := username, password := password, realm := realm,
                    client_id := client_id, client_secret := client_secret }
            else .error "client_secret length exceeds the limitation"
          else .error "client_id length exceeds the limitation"
        else .error "realm length exceeds the limitation"
      else .error "password length exceeds the limitation"
    else .error "username length exceeds the limitation"

/-! ## Device pools (`pkg/manager`, `updatePool` / `generatePool`) -/

/-- Constant `GpuDeviceType = "gpu"`. -/
def GpuDeviceType : String := "gpu"

/-- The `device` record assembled by the reconciliation pass, with Go
pointer fields as options and the attribute map as an association list. -/
structure DeviceV where
  k8sDeviceName : String
  driverName : String
  draAttributes : List (String × String)
  availableDeviceCount : Int
  minDeviceCount : Option Int := none
  maxDeviceCount : Option Int := none
  bindingTimeout : Option Int := none
deriving Repr, DecidableEq

/-- Go map assignment `m[k] = v`: replace an existing binding in place,
otherwise append a new one. -/
def mapInsert (l : List (String × String)) (k v : String) : List (String × String) :=
  if l.any (fun p => p.1 == k) then l.map (fun p => if p.1 == k then (k, v) else p)
  else l ++ [(k, v)]

/-- Embedding of `resourceapi.Device`, restricted to the fields `generatePool` sets.
String-valued attributes only, as in the source. -/
structure ResDevice where
  name : String
  attributes : List (String × String)
  usageRestrictedToNode : Bool
  bindingConditions : List String
  bindingFailureConditions : List String
  bindingTimeoutSeconds : Option Int
deriving Repr, DecidableEq

/-- Embedding of `resourceslice.Slice`. -/
structure PoolSlice where
  devices : List ResDevice
deriving Repr, DecidableEq

/-- One `corev1.NodeSelectorRequirement` (operator is always `In` here). -/
structure NodeSelReq where
  key : String
  operator : String
  values : List String
deriving Repr, DecidableEq

/-- Embedding of `resourceslice.Pool`: node-selector requirements of the single term,
slices, and the generation counter. -/
structure Pool where
  nodeSelector : List NodeSelReq
  slices : List PoolSlice
  generation : Int
deriving Repr, DecidableEq

/-- The Go zero value `resourceslice.Pool{}`, returned by a map lookup
for a pool name that was never stored. -/
def emptyPool : Pool := { nodeSelector := [], slices := [], generation := 0 }

/-- The `i`-th device entry generated by `generatePool`: name
`<k8sDeviceName>-gpu<i>`, the fixed `"type" = "gpu"` attribute followed
by the configured attributes, node-restricted, with the binding
condition markers and the optional binding timeout. -/
def generateDevice (dev : DeviceV) (i : Nat) : ResDevice :=
  { name := dev.k8sDeviceName ++ "-gpu" ++ toString i,
    attributes := dev.draAttributes.foldl (fun acc kv => mapInsert acc kv.1 kv.2)
      [("type", GpuDeviceType)],
    usageRestrictedToNode := true,
    bindingConditions := ["FabricDeviceReady"],
    bindingFailureConditions := ["FabricDeviceReschedule", "FabricDeviceFailed"],
    bindingTimeoutSeconds := dev.bindingTimeout }

/-- Embedding of `CDIManager.generatePool`: one generated device per available unit
(`for i := 0; i < availableDeviceCount; i++`), a selector matching both
the device-model label and the fabric label, and the given generation. -/
def generatePool (lp : String) (dev : DeviceV) (fabricID : Int) (generation : Int) : Pool :=
  { nodeSelector :=
      [ { key := lp ++ "/" ++ dev.k8sDeviceName, operator := "In", values := ["true"] },
        { key := lp ++ "/" ++ "fabric", operator := "In", values := [toString fabricID] } ],
    slices := [⟨(List.range dev.availableDeviceCount.toNat).map (generateDevice dev)⟩],
    generation := generation }

/-- Embedding of `CDIManager.updatePool` on the pool map of one driver (total
function with the Go zero value for missing names): create the pool
with generation 1 when it has no slices yet, regenerate it with the
generation incremented by 1 when its first slice's device count differs
from the observed available count, and leave the map untouched (and
report no update) otherwise. -/
def updatePool (pools : String → Pool) (lp : String) (poolName : String)
    (dev : DeviceV) (fabricID : Int) : (String → Pool) × Bool :=
  match (pools poolName).slices with
  | [] =>
    (fun n => if n = poolName then generatePool lp dev fabricID 1 else pools n, true)
  | s :: _ =>
    if (s.devices.length : Int) ≠ dev.availableDeviceCount then
      (fun n => if n = poolName then
                  generatePool lp dev fabricID ((pools poolName).generation + 1)
                else pools n, true)
    else (pools, false)

/-- Names of the device entries of a pool's first slice (the only slice
`generatePool` ever creates). -/
def poolDeviceNames (p : Pool) : List String :=
  match p.slices with
  | [] => []
  | s :: _ => s.devices.map (fun d => d.name)

/-! ## Reconciliation pass: machine construction (`startCheckResourcePoolLoop`) -/

/-- One entry of the FabricManager machine list: UUID and optional fabric. -/
structure FMMachine where
  machineUUID : String
  fabricID : Option Int
deriving Repr, DecidableEq

/-- Embedding of `getFabricID`: the fabric pointer of the first machine-list entry
with the given UUID (which may itself be `nil`), `nil` when absent. -/
def getFabricID (mList : List FMMachine) (muuid : String) : Option Int :=
  match mList.find? (fun mc => mc.machineUUID == muuid) with
  | some mc => mc.fabricID
  | none => none

/-- Embedding of `client.CMNodeGroupInfo`: node-group UUID and member machine UUIDs. -/
structure CMNodeGroupInfo where
  uuid : String
  machineIDs : List String
deriving Repr, DecidableEq

/-- The `foundInNodeGroup` computation of the pass: scanning all node
groups in order and keeping the UUID of the last group containing the
machine; the Go map lookup of an absent key yields `""`. -/
def resolveNodeGroup (ngInfos : List CMNodeGroupInfo) (muuid : String) : String :=
  (ngInfos.foldl
    (fun acc ng => if ng.machineIDs.contains muuid then some ng.uuid else acc)
    none).getD ""

/-- A machine of the pass after fabric resolution (`fabricID` is the
dereferenced non-nil pointer). -/
structure Machine where
  nodeName : String
  machineUUID : String
  fabricID : Int
  nodeGroupUUID : String
deriving Repr, DecidableEq

/-- The loop body building one machine from a `(nodeName, machineUUID)`
entry: `nil` when the UUID has no fabric ID in the snapshot (the entry
is skipped with a warning), otherwise the machine with its node-group
annotation (computed only when `useCM`). -/
def resolveMachine (mList : List FMMachine) (useCM : Bool)
    (ngInfos : List CMNodeGroupInfo) (p : String × String) : Option Machine :=
  match getFabricID mList p.2 with
  | none => none
  | some fid =>
    some { nodeName := p.1, machineUUID := p.2, fabricID := fid,
           nodeGroupUUID := if useCM then resolveNodeGroup ngInfos p.2 else "" }

/-- The machine-construction prefix of `startCheckResourcePoolLoop`:
fail when the node-to-UUID map is empty; skip entries whose UUID has no
fabric ID in the machine-list snapshot; annotate with the owning node
group when `useCM`; fail when no machine survives. -/
def buildMachines (muuids : List (String × String)) (mList : List FMMachine)
    (useCM : Bool) (ngInfos : List CMNodeGroupInfo) : Except String (List Machine) :=
  if muuids.length = 0 then .error "not any machine uuid is found"
  else
    let machines := muuids.filterMap (resolveMachine mList useCM ngInfos)
    if machines.length = 0 then .error "not any machine is found to process"
    else .ok machines

/-! ## Heap model of device lists (`deviceList.DeepCopy` and the min/max overlay)

Device records live behind pointers (`map[string]*device`), and the
attribute map inside a record is itself a reference.  The heap holds
both stores plus allocation counters; `deviceList.DeepCopy` copies each
record by value (`*newDevice = *inDevice`) into a fresh cell, so the
copied record's `draAttributes` field still holds the same map address. -/

/-- The `device` struct as stored on the heap: `draAttributes` is the
address of the shared attribute-map object. -/
structure HDevice where
  k8sDeviceName : String
  driverName : String
  draAttributes : Nat
  availableDeviceCount : Int
  minDeviceCount : Option Int
  maxDeviceCount : Option Int
  bindingTimeout : Option Int
deriving Repr, DecidableEq

/-- Heap: device-record store and attribute-map store with bump
allocation counters. -/
structure Heap where
  devs : Nat → Option HDevice
  maps : Nat → Option (List (String × String))
  nextDev : Nat
  nextMap : Nat

/-- A `deviceList` value: model name paired with the device pointer. -/
abbrev DeviceListP := List (String × Nat)

/-- Embedding of `deviceList.DeepCopy`: for each entry allocate a fresh record cell
and copy the pointed-to record by value (`*newDevice = *inDevice`).
A `nil` device pointer would crash the Go program; such entries never
occur on well-formed heaps and are skipped here to keep the function
total. -/
def deepCopy (h : Heap) : DeviceListP → Heap × DeviceListP
  | [] => (h, [])
  | e :: rest =>
    match h.devs e.2 with
    | some d =>
      let h1 : Heap :=
        { h with devs := fun a => if a = h.nextDev then some d else h.devs a,
                 nextDev := h.nextDev + 1 }
      let r := deepCopy h1 rest
      (r.1, (e.1, h.nextDev) :: r.2)
    | none => deepCopy h rest

/-- In-place update of the record at address `p` (no-op at a dangling
address, which cannot occur on well-formed heaps). -/
def updateDev (h : Heap) (p : Nat) (f : HDevice → HDevice) : Heap :=
  match h.devs p with
  | some d => { h with devs := fun a => if a = p then some (f d) else h.devs a }
  | none => h

/-- The overlay body for one model entry:
`if limit.min != nil { dev.minDeviceCount = limit.min }` and the same
for max, through the pointer `p`. -/
def setMinMax (h : Heap) (p : Nat) (mn mx : Option Int) : Heap :=
  updateDev h p (fun d =>
    let d1 := match mn with
      | some v => { d with minDeviceCount := some v }
      | none => d
    match mx with
    | some v => { d1 with maxDeviceCount := some v }
    | none => d1)

/-- Device pointer stored for a model name, `machine.deviceList[model]`. -/
def lookupDevPtr (dl : DeviceListP) (model : String) : Option Nat :=
  (dl.find? (fun e => e.1 == model)).map (fun e => e.2)

/-- The inner loop `for model, limit := range deviceMinMax` applied to
one machine's device list. -/
def overlayMinMax (h : Heap) (dl : DeviceListP)
    (mm : List (String × Option Int × Option Int)) : Heap :=
  mm.foldl (fun hh entry =>
    match lookupDevPtr dl entry.1 with
    | some p => setMinMax hh p entry.2.1 entry.2.2
    | none => hh) h

/-- A machine of the pass after its device list was attached. -/
structure MachineH where
  nodeName : String
  machineUUID : String
  fabricID : Int
  nodeGroupUUID : String
  deviceList : DeviceListP
deriving Repr, DecidableEq

/-- The memoisation loop `nodeGroupFound`: walk the machines in order
and, for the first machine of each node-group UUID seen (including the
empty UUID of machines found in no node group), query min/max once per
model of that machine's device list via the ClusterManager oracle
`minmax (machineUUID) (model)`. -/
def discoverMinMax (minmax : String → String → Option Int × Option Int) :
    List MachineH → List (String × List (String × Option Int × Option Int)) →
    List (String × List (String × Option Int × Option Int))
  | [], acc => acc
  | mc :: rest, acc =>
    if acc.any (fun e => e.1 == mc.nodeGroupUUID) then discoverMinMax minmax rest acc
    else
      discoverMinMax minmax rest
        (acc ++ [(mc.nodeGroupUUID,
                  mc.deviceList.map (fun e => (e.1, minmax mc.machineUUID e.1)))])

/-- The copy loop `for ngUUID, deviceMinMax := range nodeGroupFound`:
overlay each discovered limit set onto every machine of that node group. -/
def applyMinMaxAll (h : Heap) (machines : List MachineH)
    (found : List (String × List (String × Option Int × Option Int))) : Heap :=
  found.foldl (fun hh entry =>
    machines.foldl (fun hhh mc =>
      if mc.nodeGroupUUID == entry.1 then overlayMinMax hhh mc.deviceList entry.2
      else hhh) hh) h

/-- The whole `if m.cdiOptions.useCM { ... }` quota step of the pass. -/
def quotaStep (h : Heap) (machines : List MachineH) (useCM : Bool)
    (minmax : String → String → Option Int × Option Int) : Heap :=
  if useCM then applyMinMaxAll h machines (discoverMinMax minmax machines []) else h

/-! ## Node-label synchronisation (`CDIManager.manageCDINodeLabel`) -/

/-- One label mutation performed on `node.Labels`: a map assignment or a
map delete. -/
inductive LabelOp
  | set (key value : String)
  | del (key : String)
deriving Repr, DecidableEq

/-- Go map assignment on the label map. -/
def labelsSet (labels : List (String × String)) (k v : String) : List (String × String) :=
  mapInsert labels k v

/-- Go `delete(node.Labels, k)`. -/
def labelsDel (labels : List (String × String)) (k : String) : List (String × String) :=
  labels.filter (fun e => ¬ e.1 == k)

/-- The per-device body of the `useCM` branch: max label first, then min
label, each written only when the bound exists and differs from the
node's current value, deleted when the bound is absent.  The state is
the label map together with the log of mutations issued so far. -/
def deviceLabelStep (lp : String) (acc : List (String × String) × List LabelOp)
    (dev : DeviceV) : List (String × String) × List LabelOp :=
  let maxKey := lp ++ "/" ++ dev.k8sDeviceName ++ "-size-max"
  let acc1 :=
    match dev.maxDeviceCount with
    | some v =>
      if lookupData acc.1 maxKey ≠ toString v then
        (labelsSet acc.1 maxKey (toString v), acc.2 ++ [LabelOp.set maxKey (toString v)])
      else acc
    | none => (labelsDel acc.1 maxKey, acc.2 ++ [LabelOp.del maxKey])
  let minKey := lp ++ "/" ++ dev.k8sDeviceName ++ "-size-min"
  match dev.minDeviceCount with
  | some v =>
    if lookupData acc1.1 minKey ≠ toString v then
      (labelsSet acc1.1 minKey (toString v), acc1.2 ++ [LabelOp.set minKey (toString v)])
    else acc1
  | none => (labelsDel acc1.1 minKey, acc1.2 ++ [LabelOp.del minKey])

/-- Embedding of `manageCDINodeLabel` for one machine with a resolved node: the
fabric label is assigned unconditionally, then, when node-group mode is
enabled, every device's max/min labels are reconciled. -/
def manageNodeLabels (lp : String) (useCM : Bool) (fabricID : Int)
    (devs : List DeviceV) (labels : List (String × String)) :
    List (String × String) × List LabelOp :=
  let fabricKey := lp ++ "/" ++ "fabric"
  let st := (labelsSet labels fabricKey (toString fabricID),
             [LabelOp.set fabricKey (toString fabricID)])
  if useCM then devs.foldl (deviceLabelStep lp) st else st

/-- Effect of one logged mutation on a label map. -/
def applyLabelOp (labels : List (String × String)) (op : LabelOp) :
    List (String × String) :=
  match op with
  | .set k v => labelsSet labels k v
  | .del k => labelsDel labels k

/-- Modelled from the spec (refinement target for the label-sync claim):
the mutations the spec prescribes for one device model — write the
max-size label only when a max bound exists and differs from the node's
current label value, delete it when no max bound exists, and the same
rule for the min-size label. -/
def specDeviceOps (lp : String) (labels : List (String × String)) (dev : DeviceV) :
    List LabelOp :=
  let maxKey := lp ++ "/" ++ dev.k8sDeviceName ++ "-size-max"
  let maxOps :=
    match dev.maxDeviceCount with
    | some v =>
      if lookupData labels maxKey = toString v then [] else [LabelOp.set maxKey (toString v)]
    | none => [LabelOp.del maxKey]
  let labels1 := maxOps.foldl applyLabelOp labels
  let minKey := lp ++ "/" ++ dev.k8sDeviceName ++ "-size-min"
  let minOps :=
    match dev.minDeviceCount with
    | some v =>
      if lookupData labels1 minKey = toString v then [] else [LabelOp.set minKey (toString v)]
    | none => [LabelOp.del minKey]
  maxOps ++ minOps

/-- Modelled from the spec: the full sequence of min/max label
mutations, each device judged against the label state left by the
previous devices. -/
def specLabelSync (lp : String) (labels : List (String × String)) :
    List DeviceV → List LabelOp
  | [] => []
  | d :: rest =>
    let ops := specDeviceOps lp labels d
    ops ++ specLabelSync lp (ops.foldl applyLabelOp labels) rest

/-! ## Two-thread interleaving model of `cachedIMTokenSource.Token`

Each thread executes the statements of `Token()` in order; the atomic
steps and the lock/unlock placement follow the source exactly: only the
snapshot read of `ts.token` is guarded by `ts.mu`, while the validity
check, the refresh call and the write of `ts.token` run after
`ts.mu.Unlock()`.  Tokens are abbreviated to `Nat`; `valid` abstracts
the `Expiry`-versus-`now` test and `refreshResult t` the outcome of
thread `t`'s call to `newIMTokenSource.Token()` (`none` = failure). -/

/-- Program points of the `Token()` body. -/
inductive TPc
  | start       -- about to execute ts.mu.Lock()
  | readTok     -- holding the lock, about to read ts.token into a local
  | unlockPc    -- holding the lock, about to execute ts.mu.Unlock()
  | checkTok    -- about to test the snapshot for validity
  | refreshing  -- executing ts.newIMTokenSource.Token()
  | writeBack   -- about to store the refresh result into ts.token
  | done
deriving Repr, DecidableEq

/-- Global state of two concurrent `Token()` callers. -/
structure CState where
  lockOwner : Option (Fin 2)
  shared : Option Nat
  pc : Fin 2 → TPc
  tmp : Fin 2 → Option Nat
  res : Fin 2 → Option Nat

/-- Pointwise update of a per-thread component. -/
def updF {α : Type} (f : Fin 2 → α) (t : Fin 2) (v : α) : Fin 2 → α :=
  fun u => if u = t then v else f u

/-- One atomic step of thread `t`; a thread blocked on the lock, or
already done, leaves the state unchanged. -/
def cstep (valid : Nat → Bool) (refreshResult : Fin 2 → Option Nat)
    (s : CState) (t : Fin 2) : CState :=
  match s.pc t with
  | .start =>
    match s.lockOwner with
    | none => { s with lockOwner := some t, pc := updF s.pc t .readTok }
    | some _ => s
  | .readTok => { s with tmp := updF s.tmp t s.shared, pc := updF s.pc t .unlockPc }
  | .unlockPc => { s with lockOwner := none, pc := updF s.pc t .checkTok }
  | .checkTok =>
    match s.tmp t with
    | some tok =>
      if valid tok then { s with pc := updF s.pc t .done }
      else { s with pc := updF s.pc t .refreshing }
    | none => { s with pc := updF s.pc t .refreshing }
  | .refreshing =>
    { s with res := updF s.res t (refreshResult t), pc := updF s.pc t .writeBack }
  | .writeBack =>
    match s.res t with
    | some v => { s with shared := some v, pc := updF s.pc t .done }
    | none => { s with pc := updF s.pc t .done }
  | .done => s

/-- Initial state: lock free, no token cached, both callers at entry. -/
def cinit : CState :=
  { lockOwner := none, shared := none, pc := fun _ => .start,
    tmp := fun _ => none, res := fun _ => none }

/-- Run a schedule (a list of thread choices) from the initial state. -/
def crun (valid : Nat → Bool) (refreshResult : Fin 2 → Option Nat)
    (sched : List (Fin 2)) : CState :=
  sched.foldl (cstep valid refreshResult) cinit

/-- States reachable by interleaving the two callers. -/
inductive CReach (valid : Nat → Bool) (refreshResult : Fin 2 → Option Nat) : CState → Prop
  | init : CReach valid refreshResult cinit
  | step (s : CState) (t : Fin 2) :
      CReach valid refreshResult s → CReach valid refreshResult (cstep valid refreshResult s t)

/-- Program points at which a thread is inside the lock-protected
region of `Token()`. -/
def inCrit (p : TPc) : Prop := p = TPc.readTok ∨ p = TPc.unlockPc

/-! ## Theorems -/

theorem tokenRefreshBranch_invoked (ts : CachedIMTokenSource) (refresh : Except String OToken) :
    (tokenRefreshBranch ts refresh).refreshInvoked = true := by
  cases refresh with
  | error e => cases h : ts.token <;> simp [tokenRefreshBranch, h]
  | ok t => rfl

/-- C2: a call to `Token` at time `now` serves the cached credential
unchanged, without invoking the refresh, exactly when a cached
credential with expiry `T` exists and `now < T - margin`; in every
other situation (no cached credential, or `now ≥ T - margin`) the
refresh operation is invoked.  The margin fixed by the constructor is
30 seconds. -/
theorem credential_cache_margin (ts : CachedIMTokenSource) (now : Int)
    (refresh : Except String OToken) :
    (∀ t, ts.token = some t → now < t.expiry - ts.marginTime →
      (tokenFn ts now refresh).result = .ok t ∧
      (tokenFn ts now refresh).state = ts ∧
      (tokenFn ts now refresh).refreshInvoked = false) ∧
    ((∀ t, ts.token = some t → t.expiry - ts.marginTime ≤ now) →
      (tokenFn ts now refresh).refreshInvoked = true) ∧
    mkCachedIMTokenSource.marginTime = 30 * second := by
  refine ⟨?_, ?_, rfl⟩
  · intro t ht hlt
    have hgt : t.expiry - ts.marginTime > now := hlt
    simp [tokenFn, ht, hgt]
  · intro hall
    cases ht : ts.token with
    | none => simp [tokenFn, ht, tokenRefreshBranch_invoked]
    | some t =>
      have hle : t.expiry - ts.marginTime ≤ now := hall t ht
      have hngt : ¬ t.expiry - ts.marginTime > now := not_lt.mpr hle
      simp [tokenFn, ht, hngt, tokenRefreshBranch_invoked]

/-- Witness for `credential_cache_margin`: margin 30, expiry 100 — at
`now = 50` the cache is served and no refresh happens, while at
`now = 70` a refresh is invoked. -/
theorem credential_cache_margin_witness :
    (tokenFn ⟨30, some ⟨"tok", 100⟩⟩ 50 (.error "boom")).refreshInvoked = false ∧
    (tokenFn ⟨30, some ⟨"tok", 100⟩⟩ 70 (.error "boom")).refreshInvoked = true := by
  constructor
  · exact ((credential_cache_margin ⟨30, some ⟨"tok", 100⟩⟩ 50 (.error "boom")).1
      ⟨"tok", 100⟩ rfl (by decide)).2.2
  · exact (credential_cache_margin ⟨30, some ⟨"tok", 100⟩⟩ 70 (.error "boom")).2.1
      (by intro t ht; cases ht; decide)

/-- C3: when the refresh is invoked and fails, a previously cached
credential is returned with no error and retained in the cache; with no
previous credential the refresh error is propagated. -/
theorem stale_credential_fallback (ts : CachedIMTokenSource) (now : Int) (e : String)
    (hinv : (tokenFn ts now (.error e)).refreshInvoked = true) :
    (∀ t, ts.token = some t →
      (tokenFn ts now (.error e)).result = .ok t ∧
      (tokenFn ts now (.error e)).state = ts) ∧
    (ts.token = none → (tokenFn ts now (.error e)).result = .error e) := by
  constructor
  · intro t ht
    by_cases hgt : t.expiry - ts.marginTime > now
    · simp [tokenFn, ht, hgt]
    · simp [tokenFn, ht, hgt, tokenRefreshBranch]
  · intro ht
    simp [tokenFn, ht, tokenRefreshBranch]

/-- Witness for `stale_credential_fallback`: a stale cached token is
returned with no error on refresh failure, and with an empty cache the
error propagates. -/
theorem stale_credential_fallback_witness :
    (tokenFn ⟨30, some ⟨"tok", 100⟩⟩ 70 (.error "boom")).result = .ok ⟨"tok", 100⟩ ∧
    (tokenFn ⟨30, none⟩ 70 (.error "boom")).result = .error "boom" := by
  constructor
  · exact ((stale_credential_fallback ⟨30, some ⟨"tok", 100⟩⟩ 70 "boom" (by decide)).1
      ⟨"tok", 100⟩ rfl).1
  · exact (stale_credential_fallback ⟨30, none⟩ 70 "boom" (by decide)).2 rfl

/-- A 1000-byte ASCII field value. -/
def kiloByteString : String := String.mk (List.replicate 1000 'a')

/-- C9 counterexample: a `username` of exactly 1000 bytes does not
exceed the claimed 1000-byte maximum, yet `getIdManagerSecret` rejects
it — the code accepts a field only when it is strictly shorter than
1000 bytes. -/
theorem secret_bound_counterexample :
    kiloByteString.utf8ByteSize = 1000 ∧
    getIdManagerSecret (some [("username", kiloByteString)]) =
      .error "username length exceeds the limitation" := by
  constructor <;> decide

/-- C9 (amended): each of the five identity-secret fields must be
strictly shorter than 1000 bytes; `getIdManagerSecret` succeeds exactly
when every field is at most 999 bytes, in which case the returned
secret carries the five field values, and an absent secret is accepted
as empty. -/
theorem secret_field_bounds (data : List (String × String)) :
    ((getIdManagerSecret (some data)).isOk = true ↔
      ((lookupData data "username").utf8ByteSize < secretAccessInfoLength ∧
       (lookupData data "password").utf8ByteSize < secretAccessInfoLength ∧
       (lookupData data "realm").utf8ByteSize < secretAccessInfoLength ∧
       (lookupData data "client_id").utf8ByteSize < secretAccessInfoLength ∧
       (lookupData data "client_secret").utf8ByteSize < secretAccessInfoLength)) ∧
    (∀ s, getIdManagerSecret (some data) = .ok s →
      s = { username := lookupData data "username",
            password := lookupData data "password",
            realm := lookupData data "realm",
            client_id := lookupData data "client_id",
            client_secret := lookupData data "client_secret" }) ∧
    getIdManagerSecret none = .ok {} := by
  refine ⟨?_, ?_, rfl⟩
  · unfold getIdManagerSecret
    dsimp only
    split_ifs with h1 h2 h3 h4 h5 <;> simp_all [Except.isOk, Except.toBool]
  · intro s hs
    unfold getIdManagerSecret at hs
    dsimp only at hs
    split_ifs at hs with h1 h2 h3 h4 h5
    · cases hs; rfl

/-- Witness for `secret_field_bounds`: short fields are accepted. -/
theorem secret_field_bounds_witness :
    (getIdManagerSecret (some [("username", "user"), ("password", "pass")])).isOk = true :=
  (secret_field_bounds [("username", "user"), ("password", "pass")]).1.mpr (by decide)

theorem generatePool_names (lp : String) (dev : DeviceV) (fid g : Int) :
    poolDeviceNames (generatePool lp dev fid g) =
      (List.range dev.availableDeviceCount.toNat).map
        (fun i => dev.k8sDeviceName ++ "-gpu" ++ toString i) := by
  simp [generatePool, poolDeviceNames, generateDevice, List.map_map, Function.comp]

theorem generatePool_generation (lp : String) (dev : DeviceV) (fid g : Int) :
    (generatePool lp dev fid g).generation = g := rfl

/-- C1: for a tracked driver and device model with available count `n`:
when no pool is stored yet under the computed name, the pool is created
with generation 1 and device entries `<k8sDeviceName>-gpu0` through
`<k8sDeviceName>-gpu(n-1)`; when a pool is stored whose first slice's
device count differs from `n`, the entries are regenerated and the
generation becomes the previous generation plus exactly 1; when the
stored count equals `n`, the pool map (generation included) is returned
unchanged and no update is reported. -/
theorem pool_diff_and_publish (pools : String → Pool) (lp poolName : String)
    (dev : DeviceV) (fid : Int) (n : Nat)
    (hn : dev.availableDeviceCount = (n : Int)) :
    (pools poolName = emptyPool →
      (updatePool pools lp poolName dev fid).2 = true ∧
      ((updatePool pools lp poolName dev fid).1 poolName).generation = 1 ∧
      poolDeviceNames ((updatePool pools lp poolName dev fid).1 poolName) =
        (List.range n).map (fun i => dev.k8sDeviceName ++ "-gpu" ++ toString i)) ∧
    (∀ s rest, (pools poolName).slices = s :: rest → s.devices.length ≠ n →
      (updatePool pools lp poolName dev fid).2 = true ∧
      ((updatePool pools lp poolName dev fid).1 poolName).generation =
        (pools poolName).generation + 1 ∧
      poolDeviceNames ((updatePool pools lp poolName dev fid).1 poolName) =
        (List.range n).map (fun i => dev.k8sDeviceName ++ "-gpu" ++ toString i)) ∧
    (∀ s rest, (pools poolName).slices = s :: rest → s.devices.length = n →
      updatePool pools lp poolName dev fid = (pools, false)) := by
  have hnames : (List.range dev.availableDeviceCount.toNat).map
      (fun i => dev.k8sDeviceName ++ "-gpu" ++ toString i) =
      (List.range n).map (fun i => dev.k8sDeviceName ++ "-gpu" ++ toString i) := by
    rw [hn]; simp
  refine ⟨?_, ?_, ?_⟩
  · intro hempty
    have hsl : (pools poolName).slices = [] := by rw [hempty]; rfl
    unfold updatePool
    rw [hsl]
    refine ⟨rfl, ?_, ?_⟩
    · simp [generatePool]
    · simp [generatePool_names, hnames]
  · intro s rest hsl hne
    have hcast : (s.devices.length : Int) ≠ dev.availableDeviceCount := by
      rw [hn]; exact_mod_cast hne
    unfold updatePool
    rw [hsl]
    dsimp only
    rw [if_pos hcast]
    refine ⟨rfl, ?_, ?_⟩
    · simp [generatePool]
    · simp [generatePool_names, hnames]
  · intro s rest hsl heq
    have hcast : ¬ (s.devices.length : Int) ≠ dev.availableDeviceCount := by
      rw [hn]; simp [heq]
    unfold updatePool
    rw [hsl]
    dsimp only
    rw [if_neg hcast]

/-- A configured device model used by concrete witnesses (mirrors
`devInfo1` of the repository's test fixtures). -/
def sampleDevice : DeviceV :=
  { k8sDeviceName := "test-device-1", driverName := "test-driver-1",
    draAttributes := [("productName", "TEST DEVICE 1")],
    availableDeviceCount := 2 }

/-- Witness for `pool_diff_and_publish`: on an empty pool map, a device
with 2 available units yields a generation-1 pool with entries
`test-device-1-gpu0`, `test-device-1-gpu1`; rerunning with the same
count leaves the map unchanged. -/
theorem pool_diff_and_publish_witness :
    (((updatePool (fun _ => emptyPool) "pre" "p1" sampleDevice 3).1 "p1").generation = 1 ∧
      poolDeviceNames ((updatePool (fun _ => emptyPool) "pre" "p1" sampleDevice 3).1 "p1") =
        ["test-device-1-gpu0", "test-device-1-gpu1"]) ∧
    updatePool (updatePool (fun _ => emptyPool) "pre" "p1" sampleDevice 3).1
        "pre" "p1" sampleDevice 3 =
      ((updatePool (fun _ => emptyPool) "pre" "p1" sampleDevice 3).1, false) := by
  have h1 := (pool_diff_and_publish (fun _ => emptyPool) "pre" "p1" sampleDevice 3 2 rfl).1 rfl
  have h2 := (pool_diff_and_publish (updatePool (fun _ => emptyPool) "pre" "p1" sampleDevice 3).1
    "pre" "p1" sampleDevice 3 2 rfl).2.2
    ⟨[generateDevice sampleDevice 0, generateDevice sampleDevice 1]⟩ [] (by rfl) (by rfl)
  exact ⟨⟨h1.2.1, by rw [h1.2.2]; rfl⟩, h2⟩

/-- C7: the machine-construction step of a pass fails when the resolved
node-to-UUID map is empty, fails when no entry resolves a fabric ID,
and otherwise skips exactly the entries without a fabric ID while
keeping every entry that has one. -/
theorem pass_machine_resolution (muuids : List (String × String)) (mList : List FMMachine)
    (useCM : Bool) (ngInfos : List CMNodeGroupInfo) :
    (muuids = [] →
      buildMachines muuids mList useCM ngInfos = .error "not any machine uuid is found") ∧
    (muuids ≠ [] → (∀ p ∈ muuids, getFabricID mList p.2 = none) →
      buildMachines muuids mList useCM ngInfos = .error "not any machine is found to process") ∧
    (∀ ms, buildMachines muuids mList useCM ngInfos = .ok ms →
      (∀ p ∈ muuids, ∀ fid, getFabricID mList p.2 = some fid →
        ∃ m ∈ ms, m.nodeName = p.1 ∧ m.machineUUID = p.2 ∧ m.fabricID = fid) ∧
      (∀ m ∈ ms, ∃ p ∈ muuids, m.nodeName = p.1 ∧ m.machineUUID = p.2 ∧
        getFabricID mList p.2 = some m.fabricID)) := by
  refine ⟨?_, ?_, ?_⟩
  · intro h
    subst h
    rfl
  · intro hne hall
    have hlen : ¬ muuids.length = 0 := by
      simpa [List.length_eq_zero] using hne
    have hfm : muuids.filterMap (resolveMachine mList useCM ngInfos) =
        ([] : List Machine) := by
      rw [List.filterMap_eq_nil]
      intro p hp
      unfold resolveMachine
      rw [hall p hp]
    unfold buildMachines
    rw [if_neg hlen]
    dsimp only
    rw [hfm]
    rfl
  · intro ms hok
    unfold buildMachines at hok
    by_cases hlen : muuids.length = 0
    · rw [if_pos hlen] at hok; cases hok
    rw [if_neg hlen] at hok
    dsimp only at hok
    by_cases hflen : (muuids.filterMap (resolveMachine mList useCM ngInfos)).length = 0
    · rw [if_pos hflen] at hok; cases hok
    rw [if_neg hflen] at hok
    injection hok with hok
    subst hok
    constructor
    · intro p hp fid hfid
      have hmem : (⟨p.1, p.2, fid,
            if useCM then resolveNodeGroup ngInfos p.2 else ""⟩ : Machine) ∈
          muuids.filterMap (resolveMachine mList useCM ngInfos) :=
        List.mem_filterMap.mpr ⟨p, hp, by unfold resolveMachine; rw [hfid]⟩
      exact ⟨_, hmem, rfl, rfl, rfl⟩
    · intro m hm
      obtain ⟨p, hp, hfp⟩ := List.mem_filterMap.mp hm
      refine ⟨p, hp, ?_⟩
      unfold resolveMachine at hfp
      cases hfid : getFabricID mList p.2 with
      | none =>
        rw [hfid] at hfp
        exact Option.noConfusion hfp
      | some fid =>
        rw [hfid] at hfp
        injection hfp with hfp
        subst hfp
        exact ⟨rfl, rfl, by simp [hfid]⟩

/-- Witness for `pass_machine_resolution`: one entry without a fabric
ID is skipped while the entry with one survives. -/
theorem pass_machine_resolution_witness :
    buildMachines [] [] false [] = .error "not any machine uuid is found" ∧
    buildMachines [("n1", "u1")] [⟨"u1", none⟩] false [] =
      .error "not any machine is found to process" ∧
    ∃ m ∈ ([⟨"n2", "u2", 3, ""⟩] : List Machine),
      m.nodeName = "n2" ∧ m.machineUUID = "u2" ∧ m.fabricID = 3 := by
  refine ⟨(pass_machine_resolution [] [] false []).1 rfl, ?_, ?_⟩
  · refine (pass_machine_resolution [("n1", "u1")] [⟨"u1", none⟩] false []).2.1
      (by intro h; cases h) ?_
    intro p hp
    cases hp with
    | head => rfl
    | tail _ h => cases h
  · exact ((pass_machine_resolution [("n1", "u1"), ("n2", "u2")]
        [⟨"u1", none⟩, ⟨"u2", some 3⟩] false []).2.2
      [⟨"n2", "u2", 3, ""⟩] rfl).1 ("n2", "u2") (by decide) 3 rfl

/-- The device record, heap, and machine of the C5 failing input: one
machine whose UUID belongs to no node group (`nodeGroupUUID = ""`),
with one device entry carrying no min/max bounds. -/
def bugDevice : HDevice :=
  { k8sDeviceName := "test-device-1", driverName := "test-driver-1", draAttributes := 0,
    availableDeviceCount := 2, minDeviceCount := none, maxDeviceCount := none,
    bindingTimeout := none }

def bugHeap : Heap :=
  { devs := fun a => if a = 0 then some bugDevice else none,
    maps := fun a => if a = 0 then some [("productName", "TEST DEVICE 1")] else none,
    nextDev := 1, nextMap := 1 }

def bugMachine : MachineH :=
  { nodeName := "node1", machineUUID := "uuid1", fabricID := 3,
    nodeGroupUUID := "", deviceList := [("DEVICE 1", 0)] }

/-- C5 (code bug): with node-group mode enabled, a machine found in no
node group (its node-group UUID resolves to `""`) still has min/max
bounds applied: the quota step memoises the ClusterManager answer under
the key `""` and overlays it onto the machine, although the code's own
warning log states that min/max will not be set for such a machine.
Before the step the device carries no bounds; afterwards it carries the
returned ones. -/
theorem ungrouped_machine_gets_bounds :
    resolveNodeGroup [⟨"ng1", ["other-uuid"]⟩] "uuid1" = "" ∧
    (bugHeap.devs 0).map (fun d => (d.minDeviceCount, d.maxDeviceCount)) =
      some (none, none) ∧
    ((quotaStep bugHeap [bugMachine] true (fun _ _ => (some 1, some 8))).devs 0).map
        (fun d => (d.minDeviceCount, d.maxDeviceCount)) =
      some (some 1, some 8) := by
  refine ⟨rfl, rfl, ?_⟩
  rfl

/-- The heap after one copy allocation of `deepCopy`. -/
def allocDev (h : Heap) (d : HDevice) : Heap :=
  { h with devs := fun a => if a = h.nextDev then some d else h.devs a,
           nextDev := h.nextDev + 1 }

theorem deepCopy_cons_some (h : Heap) (e : String × Nat) (rest : DeviceListP)
    (d : HDevice) (hd : h.devs e.2 = some d) :
    deepCopy h (e :: rest) =
      ((deepCopy (allocDev h d) rest).1,
       (e.1, h.nextDev) :: (deepCopy (allocDev h d) rest).2) := by
  conv_lhs => rw [deepCopy]
  rw [hd]
  rfl

theorem deepCopy_nextDev_mono (dl : DeviceListP) (h : Heap) :
    h.nextDev ≤ (deepCopy h dl).1.nextDev := by
  induction dl generalizing h with
  | nil => exact Nat.le_refl _
  | cons e rest ih =>
    cases hd : h.devs e.2 with
    | some d =>
      rw [deepCopy_cons_some h e rest d hd]
      exact Nat.le_trans (Nat.le_succ _) (ih (allocDev h d))
    | none =>
      unfold deepCopy
      rw [hd]
      exact ih h

theorem deepCopy_preserves (dl : DeviceListP) (h : Heap) (a : Nat) (ha : a < h.nextDev) :
    (deepCopy h dl).1.devs a = h.devs a := by
  induction dl generalizing h with
  | nil => rfl
  | cons e rest ih =>
    cases hd : h.devs e.2 with
    | some d =>
      rw [deepCopy_cons_some h e rest d hd]
      have hlt : a < (allocDev h d).nextDev := Nat.lt_trans ha (Nat.lt_succ_self _)
      rw [ih (allocDev h d) hlt]
      show (if a = h.nextDev then some d else h.devs a) = h.devs a
      rw [if_neg (Nat.ne_of_lt ha)]
    | none =>
      unfold deepCopy
      rw [hd]
      exact ih h ha

theorem deepCopy_maps_eq (dl : DeviceListP) (h : Heap) :
    (deepCopy h dl).1.maps = h.maps ∧ (deepCopy h dl).1.nextMap = h.nextMap := by
  induction dl generalizing h with
  | nil => exact ⟨rfl, rfl⟩
  | cons e rest ih =>
    cases hd : h.devs e.2 with
    | some d =>
      rw [deepCopy_cons_some h e rest d hd]
      exact ih (allocDev h d)
    | none =>
      unfold deepCopy
      rw [hd]
      exact ih h

theorem deepCopy_ptr_range (dl : DeviceListP) (h : Heap) :
    ∀ e ∈ (deepCopy h dl).2, h.nextDev ≤ e.2 ∧ e.2 < (deepCopy h dl).1.nextDev := by
  induction dl generalizing h with
  | nil => intro e he; cases he
  | cons e rest ih =>
    cases hd : h.devs e.2 with
    | some d =>
      rw [deepCopy_cons_some h e rest d hd]
      intro q hq
      cases hq with
      | head =>
        refine ⟨Nat.le_refl _, ?_⟩
        exact Nat.lt_of_lt_of_le (Nat.lt_succ_self _) (deepCopy_nextDev_mono rest (allocDev h d))
      | tail _ hq =>
        obtain ⟨h1, h2⟩ := ih (allocDev h d) q hq
        exact ⟨Nat.le_trans (Nat.le_succ _) h1, h2⟩
    | none =>
      unfold deepCopy
      rw [hd]
      exact ih h

theorem setMinMax_frame (h : Heap) (p a : Nat) (mn mx : Option Int) (hne : a ≠ p) :
    (setMinMax h p mn mx).devs a = h.devs a := by
  unfold setMinMax updateDev
  cases hd : h.devs p with
  | some d =>
    dsimp only
    rw [if_neg hne]
  | none => rfl

theorem lookupDevPtr_mem (dl : DeviceListP) (model : String) (p : Nat)
    (hp : lookupDevPtr dl model = some p) : ∃ e ∈ dl, e.2 = p := by
  unfold lookupDevPtr at hp
  cases hf : dl.find? (fun e => e.1 == model) with
  | none => rw [hf] at hp; cases hp
  | some e =>
    rw [hf] at hp
    injection hp with hp
    exact ⟨e, List.mem_of_find?_eq_some hf, hp⟩

theorem overlayMinMax_cons (h : Heap) (dl : DeviceListP)
    (entry : String × Option Int × Option Int)
    (rest : List (String × Option Int × Option Int)) :
    overlayMinMax h dl (entry :: rest) =
      overlayMinMax
        (match lookupDevPtr dl entry.1 with
         | some p => setMinMax h p entry.2.1 entry.2.2
         | none => h) dl rest := rfl

theorem overlayMinMax_frame (mm : List (String × Option Int × Option Int))
    (h : Heap) (dl : DeviceListP) (a : Nat) (ha : ∀ e ∈ dl, a ≠ e.2) :
    (overlayMinMax h dl mm).devs a = h.devs a := by
  induction mm generalizing h with
  | nil => rfl
  | cons entry rest ih =>
    rw [overlayMinMax_cons]
    cases hp : lookupDevPtr dl entry.1 with
    | none =>
      exact ih h
    | some p =>
      rw [ih (setMinMax h p entry.2.1 entry.2.2)]
      obtain ⟨e, he, hep⟩ := lookupDevPtr_mem dl entry.1 p hp
      exact setMinMax_frame h p a entry.2.1 entry.2.2 (hep ▸ ha e he)

/-- The per-fabric copy loop for two machines sharing a fabric: each is
attached its own `DeepCopy` of the fabric's device list, made in turn. -/
def copyTwice (h : Heap) (orig : DeviceListP) : Heap × DeviceListP × DeviceListP :=
  ((deepCopy (deepCopy h orig).1 orig).1,
   (deepCopy h orig).2,
   (deepCopy (deepCopy h orig).1 orig).2)

/-- C4: two machines on the same fabric get independent copies of the
fabric's device list, so the min/max overlay applied to the device
entries of one machine (because of its node group) leaves every device
record of the other machine byte-for-byte unchanged, in both orders. -/
theorem deep_copy_isolation (h : Heap) (orig : DeviceListP)
    (mm1 mm2 : List (String × Option Int × Option Int)) :
    (∀ e ∈ (copyTwice h orig).2.2,
      (overlayMinMax (copyTwice h orig).1 (copyTwice h orig).2.1 mm1).devs e.2 =
        (copyTwice h orig).1.devs e.2) ∧
    (∀ e ∈ (copyTwice h orig).2.1,
      (overlayMinMax (copyTwice h orig).1 (copyTwice h orig).2.2 mm2).devs e.2 =
        (copyTwice h orig).1.devs e.2) := by
  constructor
  · intro e he
    apply overlayMinMax_frame
    intro e1 he1
    have h1 : e1.2 < (deepCopy h orig).1.nextDev :=
      (deepCopy_ptr_range orig h e1 he1).2
    have h2 : (deepCopy h orig).1.nextDev ≤ e.2 :=
      (deepCopy_ptr_range orig (deepCopy h orig).1 e he).1
    exact Nat.ne_of_gt (Nat.lt_of_lt_of_le h1 h2)
  · intro e he
    apply overlayMinMax_frame
    intro e2 he2
    have h1 : e.2 < (deepCopy h orig).1.nextDev :=
      (deepCopy_ptr_range orig h e he).2
    have h2 : (deepCopy h orig).1.nextDev ≤ e2.2 :=
      (deepCopy_ptr_range orig (deepCopy h orig).1 e2 he2).1
    exact Nat.ne_of_lt (Nat.lt_of_lt_of_le h1 h2)

/-- Witness for `deep_copy_isolation`: overlaying min/max onto the
first copy's single entry leaves the second copy's record unchanged. -/
theorem deep_copy_isolation_witness :
    (overlayMinMax (copyTwice bugHeap [("DEVICE 1", 0)]).1
        (copyTwice bugHeap [("DEVICE 1", 0)]).2.1
        [("DEVICE 1", some 1, some 8)]).devs 2 =
      (copyTwice bugHeap [("DEVICE 1", 0)]).1.devs 2 := by
  have hmem : (("DEVICE 1", 2) : String × Nat) ∈ (copyTwice bugHeap [("DEVICE 1", 0)]).2.2 := by
    show (("DEVICE 1", 2) : String × Nat) ∈ [("DEVICE 1", 2)]
    exact List.mem_singleton.mpr rfl
  exact (deep_copy_isolation bugHeap [("DEVICE 1", 0)]
    [("DEVICE 1", some 1, some 8)] []).1 ("DEVICE 1", 2) hmem

theorem deepCopy_zip_spec (dl : DeviceListP) (h : Heap)
    (hwf : ∀ e ∈ dl, e.2 < h.nextDev ∧ (h.devs e.2).isSome = true) :
    (deepCopy h dl).2.length = dl.length ∧
    ∀ q ∈ dl.zip (deepCopy h dl).2,
      q.2.1 = q.1.1 ∧ q.1.2 < h.nextDev ∧ h.nextDev ≤ q.2.2 ∧
      (deepCopy h dl).1.devs q.2.2 = h.devs q.1.2 ∧
      (deepCopy h dl).1.devs q.1.2 = h.devs q.1.2 := by
  induction dl generalizing h with
  | nil => exact ⟨rfl, by intro q hq; cases hq⟩
  | cons e rest ih =>
    obtain ⟨helt, hesome⟩ := hwf e (List.mem_cons_self e rest)
    obtain ⟨d, hd⟩ := Option.isSome_iff_exists.mp hesome
    have hwfr : ∀ e1 ∈ rest, e1.2 < (allocDev h d).nextDev ∧
        ((allocDev h d).devs e1.2).isSome = true := by
      intro e1 he1
      obtain ⟨h1lt, h1some⟩ := hwf e1 (List.mem_cons_of_mem e he1)
      refine ⟨Nat.lt_trans h1lt (Nat.lt_succ_self _), ?_⟩
      show (if e1.2 = h.nextDev then some d else h.devs e1.2).isSome = true
      rw [if_neg (Nat.ne_of_lt h1lt)]
      exact h1some
    obtain ⟨ihlen, ihzip⟩ := ih (allocDev h d) hwfr
    rw [deepCopy_cons_some h e rest d hd]
    constructor
    · simpa using ihlen
    · intro q hq
      rw [List.zip_cons_cons] at hq
      cases hq with
      | head =>
        refine ⟨rfl, helt, Nat.le_refl _, ?_, ?_⟩
        · have hpr := deepCopy_preserves rest (allocDev h d) h.nextDev (Nat.lt_succ_self _)
          rw [hpr, hd]
          show (if h.nextDev = h.nextDev then some d else h.devs h.nextDev) = some d
          rw [if_pos rfl]
        · have hpr := deepCopy_preserves rest (allocDev h d) e.2
            (Nat.lt_trans helt (Nat.lt_succ_self _))
          rw [hpr]
          show (if e.2 = h.nextDev then some d else h.devs e.2) = h.devs e.2
          rw [if_neg (Nat.ne_of_lt helt)]
      | tail _ hq =>
        obtain ⟨hq1, hq2⟩ := List.of_mem_zip hq
        obtain ⟨hzlt, _⟩ := hwf q.1 (List.mem_cons_of_mem e hq1)
        obtain ⟨ih1, _ih2, ih3, ih4, ih5⟩ := ihzip q hq
        have hsh : (allocDev h d).devs q.1.2 = h.devs q.1.2 := by
          show (if q.1.2 = h.nextDev then some d else h.devs q.1.2) = h.devs q.1.2
          rw [if_neg (Nat.ne_of_lt hzlt)]
        refine ⟨ih1, hzlt, Nat.le_trans (Nat.le_succ _) ih3, ?_, ?_⟩
        · rw [ih4, hsh]
        · rw [ih5, hsh]

/-- Reading the attribute map referenced by the record at `p`. -/
def readAttrs (h : Heap) (p : Nat) : Option (List (String × String)) :=
  match h.devs p with
  | some d => h.maps d.draAttributes
  | none => none

/-- An insertion performed on the attribute-map object reached through
the record at `p` (a mutation made "through" that record's
`draAttributes` reference). -/
def mutateAttrsThrough (h : Heap) (p : Nat) (k v : String) : Heap :=
  match h.devs p with
  | some d =>
    { h with maps := fun a => if a = d.draAttributes
                              then (h.maps a).map (fun l => mapInsert l k v)
                              else h.maps a }
  | none => h

/-- C10: `DeepCopy` produces a fresh list of fresh device records whose
fields — the `draAttributes` map reference included — equal the
original records (so a mutation through a copy's attribute map is
observed identically through the original record), while replacing a
copy's option fields (`minDeviceCount`/`maxDeviceCount`/
`bindingTimeout`) leaves the original record untouched. -/
theorem deepcopy_shallow_aliasing (h : Heap) (dl : DeviceListP)
    (hwf : ∀ e ∈ dl, e.2 < h.nextDev ∧ (h.devs e.2).isSome = true) :
    (deepCopy h dl).2.length = dl.length ∧
    ∀ q ∈ dl.zip (deepCopy h dl).2,
      q.2.1 = q.1.1 ∧
      q.1.2 ≠ q.2.2 ∧
      (deepCopy h dl).1.devs q.2.2 = h.devs q.1.2 ∧
      (deepCopy h dl).1.devs q.1.2 = h.devs q.1.2 ∧
      (∀ k v, readAttrs (mutateAttrsThrough (deepCopy h dl).1 q.2.2 k v) q.1.2 =
              readAttrs (mutateAttrsThrough (deepCopy h dl).1 q.2.2 k v) q.2.2) ∧
      (∀ f, (updateDev (deepCopy h dl).1 q.2.2 f).devs q.1.2 = h.devs q.1.2) := by
  obtain ⟨hlen, hzip⟩ := deepCopy_zip_spec dl h hwf
  refine ⟨hlen, ?_⟩
  intro q hq
  obtain ⟨hq1, _hq2⟩ := List.of_mem_zip hq
  obtain ⟨hfst, hlt, hge, hcopy, horig⟩ := hzip q hq
  have hne : q.1.2 ≠ q.2.2 := Nat.ne_of_lt (Nat.lt_of_lt_of_le hlt hge)
  obtain ⟨_, hsome⟩ := hwf q.1 hq1
  obtain ⟨d, hd⟩ := Option.isSome_iff_exists.mp hsome
  have hc : (deepCopy h dl).1.devs q.2.2 = some d := by rw [hcopy, hd]
  have ho : (deepCopy h dl).1.devs q.1.2 = some d := by rw [horig, hd]
  refine ⟨hfst, hne, hcopy, horig, ?_, ?_⟩
  · intro k v
    unfold mutateAttrsThrough
    rw [hc]
    unfold readAttrs
    dsimp only
    rw [hc, ho]
  · intro f
    unfold updateDev
    rw [hc]
    dsimp only
    rw [if_neg hne]
    exact horig

/-- Witness for `deepcopy_shallow_aliasing`: copying a one-entry device
list places the original record, unchanged, at the fresh address 1, and
an in-place update at the copy leaves the original address 0 intact. -/
theorem deepcopy_shallow_aliasing_witness :
    (deepCopy bugHeap [("DEVICE 1", 0)]).1.devs 1 = bugHeap.devs 0 ∧
    (updateDev (deepCopy bugHeap [("DEVICE 1", 0)]).1 1
        (fun d => { d with minDeviceCount := some 5 })).devs 0 = bugHeap.devs 0 := by
  have h := (deepcopy_shallow_aliasing bugHeap [("DEVICE 1", 0)]
    (by intro e he; cases he with
        | head => exact ⟨Nat.lt_succ_self 0, rfl⟩
        | tail _ hh => cases hh)).2
    ((("DEVICE 1", 0) : String × Nat), (("DEVICE 1", 1) : String × Nat))
    (by rw [show (deepCopy bugHeap [("DEVICE 1", 0)]).2 = [("DEVICE 1", 1)] from rfl]
        exact List.mem_singleton.mpr rfl)
  exact ⟨h.2.2.1, h.2.2.2.2.2 (fun d => { d with minDeviceCount := some 5 })⟩

theorem deviceLabelStep_spec (lp : String) (labels : List (String × String))
    (ops : List LabelOp) (dev : DeviceV) :
    deviceLabelStep lp (labels, ops) dev =
      ((specDeviceOps lp labels dev).foldl applyLabelOp labels,
       ops ++ specDeviceOps lp labels dev) := by
  unfold deviceLabelStep specDeviceOps
  cases hmax : dev.maxDeviceCount with
  | some v =>
    cases hmin : dev.minDeviceCount with
    | some w =>
      dsimp only
      by_cases h1 : lookupData labels (lp ++ "/" ++ dev.k8sDeviceName ++ "-size-max") =
          toString v
      · simp only [h1, ite_true, ite_false, if_neg (not_not.mpr h1), List.foldl_nil,
          List.nil_append, List.append_nil]
        by_cases h2 : lookupData labels (lp ++ "/" ++ dev.k8sDeviceName ++ "-size-min") =
            toString w
        · simp [h2, applyLabelOp]
        · simp [h2, applyLabelOp]
      · simp only [if_pos h1, List.foldl_cons, List.foldl_nil]
        by_cases h2 : lookupData (labelsSet labels
            (lp ++ "/" ++ dev.k8sDeviceName ++ "-size-max") (toString v))
            (lp ++ "/" ++ dev.k8sDeviceName ++ "-size-min") = toString w
        · simp [h1, h2, applyLabelOp]
        · simp [h1, h2, applyLabelOp]
    | none =>
      dsimp only
      by_cases h1 : lookupData labels (lp ++ "/" ++ dev.k8sDeviceName ++ "-size-max") =
          toString v
      · simp [h1, applyLabelOp]
      · simp [h1, applyLabelOp]
  | none =>
    cases hmin : dev.minDeviceCount with
    | some w =>
      dsimp only
      by_cases h2 : lookupData (labelsDel labels
          (lp ++ "/" ++ dev.k8sDeviceName ++ "-size-max"))
          (lp ++ "/" ++ dev.k8sDeviceName ++ "-size-min") = toString w
      · simp [h2, applyLabelOp]
      · simp [h2, applyLabelOp]
    | none =>
      simp [applyLabelOp]

theorem foldl_deviceLabelStep (lp : String) (devs : List DeviceV) :
    ∀ labels ops, devs.foldl (deviceLabelStep lp) (labels, ops) =
      ((specLabelSync lp labels devs).foldl applyLabelOp labels,
       ops ++ specLabelSync lp labels devs) := by
  induction devs with
  | nil => intro labels ops; simp [specLabelSync]
  | cons d rest ih =>
    intro labels ops
    rw [List.foldl_cons, deviceLabelStep_spec, ih]
    show _ = ((specLabelSync lp labels (d :: rest)).foldl applyLabelOp labels,
              ops ++ specLabelSync lp labels (d :: rest))
    rw [specLabelSync]
    rw [List.foldl_append, List.append_assoc]

/-- C6: for a machine with a resolved node, label sync always issues
the fabric-label write (even when the value is unchanged) as its first
mutation; when node-group mode is enabled, the remaining mutations are
exactly those the spec's rule prescribes per device model — the
max-size label is written only when a max bound exists and differs from
the node's current label value, deleted when no max bound exists, and
the min-size label follows the same rule; with node-group mode off, the
fabric write is the only mutation. -/
theorem label_sync_rules (lp : String) (fid : Int) (devs : List DeviceV)
    (labels : List (String × String)) :
    (manageNodeLabels lp true fid devs labels).2 =
      LabelOp.set (lp ++ "/" ++ "fabric") (toString fid) ::
        specLabelSync lp (labelsSet labels (lp ++ "/" ++ "fabric") (toString fid)) devs ∧
    (manageNodeLabels lp false fid devs labels).2 =
      [LabelOp.set (lp ++ "/" ++ "fabric") (toString fid)] := by
  constructor
  · unfold manageNodeLabels
    dsimp only
    rw [if_pos rfl, foldl_deviceLabelStep]
    rfl
  · rfl

/-- Validity oracle under which every token is still fresh. -/
def validAlways : Nat → Bool := fun _ => true

/-- Refresh oracle: thread `t`'s call to the underlying token source
succeeds with token `t + 1`. -/
def refreshOk : Fin 2 → Option Nat := fun t => some (t.val + 1)

/-- Both callers pass through lock, read, unlock, check in turn. -/
def doubleRefreshSched : List (Fin 2) := [0, 0, 0, 0, 1, 1, 1, 1]

/-- As `doubleRefreshSched`, then caller 0 completes its refresh and
stores the new token while caller 1 is still refreshing. -/
def unlockedWriteSched : List (Fin 2) := [0, 0, 0, 0, 1, 1, 1, 1, 0, 0]

/-- C8 counterexample: with no token cached, two concurrent callers can
both be executing the underlying refresh at the same time, with the
lock free — the check-refresh-update sequence of
`cachedIMTokenSource.Token` is not one critical section and refresh
attempts are not mutually excluded. -/
theorem concurrent_refresh_counterexample :
    (crun validAlways refreshOk doubleRefreshSched).pc 0 = TPc.refreshing ∧
    (crun validAlways refreshOk doubleRefreshSched).pc 1 = TPc.refreshing ∧
    (crun validAlways refreshOk doubleRefreshSched).lockOwner = none :=
  ⟨rfl, rfl, rfl⟩

theorem mutex_pc_out (s : CState) (t : Fin 2) (z : TPc) (hz : ¬ inCrit z)
    (ih : ∀ u, inCrit (s.pc u) → s.lockOwner = some u) :
    ∀ u, inCrit (updF s.pc t z u) → s.lockOwner = some u := by
  intro u hu
  by_cases hut : u = t
  · subst hut
    have hup : updF s.pc u z u = z := by unfold updF; rw [if_pos rfl]
    rw [hup] at hu
    exact absurd hu hz
  · have hup : updF s.pc t z u = s.pc u := by unfold updF; rw [if_neg hut]
    rw [hup] at hu
    exact ih u hu

theorem notCrit_checkTok : ¬ inCrit TPc.checkTok := by rintro (h | h) <;> cases h

theorem notCrit_refreshing : ¬ inCrit TPc.refreshing := by rintro (h | h) <;> cases h

theorem notCrit_writeBack : ¬ inCrit TPc.writeBack := by rintro (h | h) <;> cases h

theorem notCrit_done : ¬ inCrit TPc.done := by rintro (h | h) <;> cases h

theorem cstep_mutex (valid : Nat → Bool) (rr : Fin 2 → Option Nat) (s : CState) (t : Fin 2)
    (ih : ∀ u, inCrit (s.pc u) → s.lockOwner = some u) :
    ∀ u, inCrit ((cstep valid rr s t).pc u) → (cstep valid rr s t).lockOwner = some u := by
  intro u hu
  cases hpc : s.pc t with
  | start =>
    cases hlo : s.lockOwner with
    | none =>
      have hstep : cstep valid rr s t =
          { s with lockOwner := some t, pc := updF s.pc t .readTok } := by
        unfold cstep; rw [hpc, hlo]
      rw [hstep] at hu ⊢
      by_cases hut : u = t
      · subst hut; rfl
      · have hup : updF s.pc t TPc.readTok u = s.pc u := by unfold updF; rw [if_neg hut]
        have hu0 : inCrit (updF s.pc t TPc.readTok u) := hu
        rw [hup] at hu0
        have hcontra := ih u hu0
        rw [hlo] at hcontra
        cases hcontra
    | some w =>
      have hstep : cstep valid rr s t = s := by unfold cstep; rw [hpc, hlo]
      rw [hstep] at hu ⊢
      exact ih u hu
  | readTok =>
    have hown := ih t (by rw [hpc]; exact Or.inl rfl)
    have hstep : cstep valid rr s t =
        { s with tmp := updF s.tmp t s.shared, pc := updF s.pc t .unlockPc } := by
      unfold cstep; rw [hpc]
    rw [hstep] at hu ⊢
    by_cases hut : u = t
    · subst hut; exact hown
    · have hup : updF s.pc t TPc.unlockPc u = s.pc u := by unfold updF; rw [if_neg hut]
      have hu0 : inCrit (updF s.pc t TPc.unlockPc u) := hu
      rw [hup] at hu0
      exact ih u hu0
  | unlockPc =>
    have hown := ih t (by rw [hpc]; exact Or.inr rfl)
    have hstep : cstep valid rr s t =
        { s with lockOwner := none, pc := updF s.pc t .checkTok } := by
      unfold cstep; rw [hpc]
    rw [hstep] at hu ⊢
    by_cases hut : u = t
    · subst hut
      have hup : updF s.pc u TPc.checkTok u = TPc.checkTok := by unfold updF; rw [if_pos rfl]
      have hu0 : inCrit (updF s.pc u TPc.checkTok u) := hu
      rw [hup] at hu0
      exact absurd hu0 notCrit_checkTok
    · have hup : updF s.pc t TPc.checkTok u = s.pc u := by unfold updF; rw [if_neg hut]
      have hu0 : inCrit (updF s.pc t TPc.checkTok u) := hu
      rw [hup] at hu0
      have hcontra := ih u hu0
      rw [hown] at hcontra
      injection hcontra with hcontra
      exact absurd hcontra.symm hut
  | checkTok =>
    cases htmp : s.tmp t with
    | some tok =>
      by_cases hv : valid tok = true
      · have hstep : cstep valid rr s t = { s with pc := updF s.pc t .done } := by
          unfold cstep; rw [hpc, htmp]; dsimp only; rw [if_pos hv]
        rw [hstep] at hu ⊢
        exact mutex_pc_out s t TPc.done notCrit_done ih u hu
      · have hstep : cstep valid rr s t = { s with pc := updF s.pc t .refreshing } := by
          unfold cstep; rw [hpc, htmp]; dsimp only; rw [if_neg hv]
        rw [hstep] at hu ⊢
        exact mutex_pc_out s t TPc.refreshing notCrit_refreshing ih u hu
    | none =>
      have hstep : cstep valid rr s t = { s with pc := updF s.pc t .refreshing } := by
        unfold cstep; rw [hpc, htmp]
      rw [hstep] at hu ⊢
      exact mutex_pc_out s t TPc.refreshing notCrit_refreshing ih u hu
  | refreshing =>
    have hstep : cstep valid rr s t =
        { s with res := updF s.res t (rr t), pc := updF s.pc t .writeBack } := by
      unfold cstep; rw [hpc]
    rw [hstep] at hu ⊢
    exact mutex_pc_out s t TPc.writeBack notCrit_writeBack ih u hu
  | writeBack =>
    cases hres : s.res t with
    | some v =>
      have hstep : cstep valid rr s t =
          { s with shared := some v, pc := updF s.pc t .done } := by
        unfold cstep; rw [hpc, hres]
      rw [hstep] at hu ⊢
      exact mutex_pc_out s t TPc.done notCrit_done ih u hu
    | none =>
      have hstep : cstep valid rr s t = { s with pc := updF s.pc t .done } := by
        unfold cstep; rw [hpc, hres]
      rw [hstep] at hu ⊢
      exact mutex_pc_out s t TPc.done notCrit_done ih u hu
  | done =>
    have hstep : cstep valid rr s t = s := by unfold cstep; rw [hpc]
    rw [hstep] at hu ⊢
    exact ih u hu

theorem creach_mutex (valid : Nat → Bool) (rr : Fin 2 → Option Nat) (s : CState)
    (hr : CReach valid rr s) : ∀ u, inCrit (s.pc u) → s.lockOwner = some u := by
  induction hr with
  | init =>
    intro u hu
    rw [show cinit.pc u = TPc.start from rfl] at hu
    rcases hu with h | h <;> cases h
  | step s1 t _ ih => exact cstep_mutex valid rr s1 t ih

/-- C8 (amended): the mutex of `cachedIMTokenSource` guards only the
snapshot read of the cached token — in every reachable state a thread
between `Lock()` and `Unlock()` owns the lock — while the validity
check, the refresh call and the write of `ts.token` run outside the
critical section: two callers can be refreshing simultaneously and the
cache write can complete with the lock free while the other caller is
still refreshing. -/
theorem lock_guards_only_snapshot_read :
    (∀ (valid : Nat → Bool) (rr : Fin 2 → Option Nat) (s : CState),
      CReach valid rr s → ∀ u, inCrit (s.pc u) → s.lockOwner = some u) ∧
    ((crun validAlways refreshOk unlockedWriteSched).shared = some 1 ∧
     (crun validAlways refreshOk unlockedWriteSched).lockOwner = none ∧
     (crun validAlways refreshOk unlockedWriteSched).pc 1 = TPc.refreshing) :=
  ⟨fun valid rr s hr => creach_mutex valid rr s hr, rfl, rfl, rfl⟩

/-- Witness for `lock_guards_only_snapshot_read`: after thread 0
acquires the lock, it is at the guarded read and owns the lock. -/
theorem lock_guards_only_snapshot_read_witness :
    (cstep validAlways refreshOk cinit 0).lockOwner = some 0 :=
  lock_guards_only_snapshot_read.1 validAlways refreshOk
    (cstep validAlways refreshOk cinit 0)
    (CReach.step cinit 0 CReach.init) 0 (Or.inl rfl)

end CDI
